import Mathlib

/-!
# SaveMyMind — verification of the note store, codec, categorization and
# provisioning gate

Shallow embedding of the core of the SaveMyMind note-taking client:

* `src/utils/noteUtils.ts` — id generation, date categorization, title
  generation, note CRUD helpers, and the storage codec
  (`JSON.stringify`/`JSON.parse` with `Date` ⇄ ISO-8601 string conversion);
* `src/hooks/useNotes.ts` — the hook state machine (`saveNotes`, `loadNotes`,
  `addNote`, `updateNoteById`, `getNoteById`) with the persistence adapter
  (AsyncStorage) modelled by an explicit storage cell and injected
  success/failure flags;
* `src/services/modelDownloadService.ts` and the startup gate in
  `src/app/index.tsx` (`validateAndEnsureModel`) — the asset provisioning
  state machine.

JavaScript strings are modelled as `List Char`; instants (`Date`) as epoch
milliseconds (`Int`).  The timezone offset is taken to be zero, so the
"local" calendar date of an instant coincides with its UTC calendar date.
Sources of nondeterminism (`Date.now()`, `Math.random()`, adapter I/O
success or failure) are passed in as explicit parameters.

The file is organised as: all definitions, then supporting lemmas, then
one theorem per claim (with witnesses / counterexamples where required).
-/

/-! ## Civil calendar arithmetic (models the calendar part of JS `Date`)

The first group of definitions models the calendar arithmetic that
`Date#toISOString` and `new Date(isoString)` perform: decomposition of an
epoch-day count into a {year, month, day} triple and back, via the
standard era-based civil-calendar algorithm.  Its round-trip theorem is
what makes the storage codec round-trip provable for arbitrary
timestamps. -/

/-- Day-of-year from a calendar month/day pair, counting from March
(`m = 3` and `d = 1` give `0`); the `[153 m + 2] / 5` pattern encodes the
5-month cycle of month lengths 31 30 31 30 31. -/
def doyFromMonthDay (m d : Nat) : Nat :=
  (153 * (if m > 2 then m - 3 else m + 9) + 2) / 5 + d - 1

/-- Day-of-era from a year-of-era (`0 ≤ yoe < 400`) and day-of-year. -/
def doeFromYoeDoy (yoe doy : Nat) : Nat :=
  365 * yoe + yoe / 4 - yoe / 100 + doy

/-- Numerator of the year-of-era extraction formula. -/
def gfun (doe : Nat) : Nat := doe - doe / 1460 + doe / 36524 - doe / 146096

/-- Year-of-era of a day-of-era. -/
def ffun (doe : Nat) : Nat := gfun doe / 365

/-- First day-of-era of a year-of-era. -/
def yearStart (y : Nat) : Nat := 365 * y + y / 4 - y / 100

/-- First day-of-era of the year after `y`, seen as part of the same era
(the 400-year era has exactly 146097 days). -/
def nextStart (y : Nat) : Nat := if y = 399 then 146097 else yearStart (y + 1)

/-- Decompose a day-of-era into (year-of-era, month, day). -/
def civilFromDoe (doe : Nat) : Nat × Nat × Nat :=
  let yoe := (doe - doe / 1460 + doe / 36524 - doe / 146096) / 365
  let doy := doe - (365 * yoe + yoe / 4 - yoe / 100)
  let mp := (5 * doy + 2) / 153
  let d := doy - (153 * mp + 2) / 5 + 1
  let m := if mp < 10 then mp + 3 else mp - 9
  (yoe, m, d)

/-- Bundled month/day extraction round-trip check for a single day-of-year. -/
def monthDayRT (doy : Nat) : Bool :=
  let mp := (5 * doy + 2) / 153
  let d := doy - (153 * mp + 2) / 5 + 1
  let m := if mp < 10 then mp + 3 else mp - 9
  ((153 * (if m > 2 then m - 3 else m + 9) + 2) / 5 + d - 1 == doy)
    && 1 ≤ m && m ≤ 12 && decide ((m ≤ 2) ↔ 10 ≤ mp) && 1 ≤ d && d ≤ 31

/-- Days-since-epoch from a proleptic-Gregorian calendar date (what
`Date.UTC(y, m, d)` computes, at day granularity).  `/` and `%` on `Int`
are Euclidean, which for the positive divisors used here agrees with the
flooring division the algorithm requires. -/
def daysFromCivil (y : Int) (m d : Nat) : Int :=
  let y2 := if m ≤ 2 then y - 1 else y
  let era := y2 / 400
  let yoe : Nat := (y2 - era * 400).toNat
  era * 146097 + (doeFromYoeDoy yoe (doyFromMonthDay m d) : Int) - 719468

/-- Calendar date (year, month 1..12, day 1..31) of a days-since-epoch
count (what `getUTCFullYear`/`getUTCMonth`/`getUTCDate` compute). -/
def civilFromDays (z : Int) : Int × Nat × Nat :=
  let z2 := z + 719468
  let era := z2 / 146097
  let doe : Nat := (z2 % 146097).toNat
  let c := civilFromDoe doe
  (era * 400 + c.1 + (if c.2.1 ≤ 2 then 1 else 0), c.2.1, c.2.2)

/-- The component content of the ISO-8601 string `Date#toISOString`
produces ("YYYY-MM-DDTHH:mm:ss.sssZ").  The fixed-width decimal rendering
of the components into the actual character string is injective, so the
codec is modelled at this component level. -/
structure IsoDate where
  year : Int
  month : Nat
  day : Nat
  hour : Nat
  minute : Nat
  second : Nat
  millis : Nat
deriving DecidableEq, Repr

/-- `Date#toISOString` on an epoch-milliseconds instant (UTC). -/
def toIso (t : Int) : IsoDate :=
  let days := t / 86400000
  let ms : Nat := (t % 86400000).toNat
  let c := civilFromDays days
  { year := c.1, month := c.2.1, day := c.2.2,
    hour := ms / 3600000, minute := ms / 60000 % 60,
    second := ms / 1000 % 60, millis := ms % 1000 }

/-- `new Date(isoString)` — the epoch-milliseconds instant an ISO string
with UTC designator denotes. -/
def parseIso (x : IsoDate) : Int :=
  daysFromCivil x.year x.month x.day * 86400000 +
    ((x.hour * 3600000 + x.minute * 60000 + x.second * 1000 + x.millis : Nat) : Int)

/-! ## JavaScript strings as lists of characters -/

/-- The whitespace characters relevant to `String.prototype.trim` (the
ASCII subset; the note texts the client handles are ordinary text). -/
def jsIsWS (c : Char) : Bool :=
  c = ' ' || c = '\t' || c = '\n' || c = '\r' || c = '\x0b' || c = '\x0c'

/-- Remove trailing whitespace. -/
def dropTrailingWS (l : List Char) : List Char :=
  (l.reverse.dropWhile jsIsWS).reverse

/-- `String.prototype.trim`. -/
def jsTrim (l : List Char) : List Char :=
  dropTrailingWS (l.dropWhile jsIsWS)

/-- `String.prototype.split('\n')`: always at least one field; `""` splits
to `[""]`, a trailing newline yields a trailing empty field. -/
def splitLines : List Char → List (List Char)
  | [] => [[]]
  | c :: rest =>
    if c = '\n' then [] :: splitLines rest
    else
      match splitLines rest with
      | [] => [[c]]
      | l :: ls => (c :: l) :: ls

/-! ## noteUtils.ts -/

/-- The default title literal `'New note'`. -/
def newNoteTitle : List Char := "New note".toList

/-- The ellipsis marker `'...'` appended to truncated titles. -/
def ellipsisMarker : List Char := "...".toList

/-- `line.length > 50 ? line.substring(0, 50) + '...' : line`. -/
def truncateTitle (l : List Char) : List Char :=
  if l.length > 50 then l.take 50 ++ ellipsisMarker else l

/-- `generateTitleFromContent` from `src/utils/noteUtils.ts` (lines
96–118): default on blank content; else first line of the trimmed
content, trimmed; if that is empty (dead in practice, kept faithfully),
scan all lines for the first with non-blank trim; truncate to 50
characters plus ellipsis. -/
def generateTitleFromContent (content : List Char) : List Char :=
  if jsTrim content = [] then newNoteTitle
  else
    let firstLine := jsTrim ((splitLines (jsTrim content)).headD [])
    if firstLine = [] then
      match (splitLines (jsTrim content)).find? (fun l => !(jsTrim l).isEmpty) with
      | some l => truncateTitle (jsTrim l)
      | none => newNoteTitle
    else truncateTitle firstLine

/-- Modelled from the spec: the title-generation rule as §4.3 words it —
trim the content; if empty return the default; otherwise split into
lines, use the first line whose trim is non-empty (trimmed), truncating
to 50 characters with an ellipsis marker; default if no line matches.
Used only to state the refinement claim C3 against
`generateTitleFromContent`. -/
def specTitleGen (content : List Char) : List Char :=
  if jsTrim content = [] then newNoteTitle
  else
    match (splitLines (jsTrim content)).find? (fun l => !(jsTrim l).isEmpty) with
    | some l => truncateTitle (jsTrim l)
    | none => newNoteTitle

/-- Decimal digits of a natural number, fuel-indexed so that it reduces
by kernel evaluation (`fuel ≥ number of digits` always holds at the call
site `natDecimal`). -/
def natDecimalGo : Nat → Nat → List Char → List Char
  | 0, _, acc => acc
  | fuel + 1, n, acc =>
    if n < 10 then Nat.digitChar n :: acc
    else natDecimalGo fuel (n / 10) (Nat.digitChar (n % 10) :: acc)

/-- `Number.prototype.toString` (base 10) on a natural number. -/
def natDecimal (n : Nat) : List Char := natDecimalGo (n + 1) n []

/-- `Number.prototype.toString` (base 10) on an integer. -/
def intDecimal (i : Int) : List Char :=
  if i < 0 then '-' :: natDecimal (-i).toNat else natDecimal i.toNat

/-- `generateId` (noteUtils.ts lines 7–9):
`Date.now().toString() + Math.random().toString(36).substr(2, 9)`.
The time and the random suffix are explicit parameters. -/
def generateId (nowMs : Int) (rand : List Char) : List Char :=
  intDecimal nowMs ++ rand

/-- A note (`src/types`): id, title, content, and two instants. -/
structure Note where
  id : List Char
  title : List Char
  content : List Char
  createdAt : Int
  updatedAt : Int
deriving DecidableEq, Repr

/-- `NoteInput` (`src/types`): both fields are plain strings. -/
structure NoteInput where
  title : List Char
  content : List Char
deriving DecidableEq, Repr

/-- `Partial<NoteInput>` as passed to `updateNote` / `updateNoteById`:
`none` models an absent (`undefined`) field. -/
structure NoteUpdates where
  title : Option (List Char)
  content : Option (List Char)
deriving DecidableEq, Repr

/-- `createNote` (noteUtils.ts lines 121–132). -/
def createNote (noteInput : NoteInput) (nowMs : Int) (rand : List Char) : Note :=
  { id := generateId nowMs rand,
    title := if jsTrim noteInput.title = [] then
        generateTitleFromContent noteInput.content
      else jsTrim noteInput.title,
    content := noteInput.content,
    createdAt := nowMs,
    updatedAt := nowMs }

/-- `updateNote` (noteUtils.ts lines 134–150): effective title/content
resolution, regeneration of blank titles, fresh `updatedAt`.  The object
spread `{...existingNote, ...updates, title, updatedAt}` leaves `id` and
`createdAt` untouched. -/
def updateNote (existingNote : Note) (updates : NoteUpdates) (nowMs : Int) : Note :=
  let title0 := updates.title.getD existingNote.title
  let content := updates.content.getD existingNote.content
  let title := if jsTrim title0 = [] then generateTitleFromContent content else title0
  { id := existingNote.id,
    title := title,
    content := content,
    createdAt := existingNote.createdAt,
    updatedAt := nowMs }

/-- The five date buckets. -/
inductive DateCategory where
  | today
  | yesterday
  | thisWeek
  | thisMonth
  | older
deriving DecidableEq, Repr

/-- Milliseconds per day, `1000 * 60 * 60 * 24`. -/
def dayMs : Int := 86400000

/-- `new Date(d.getFullYear(), d.getMonth(), d.getDate()).getTime()`:
read off the calendar components of the instant's day and rebuild the
instant of that calendar date's midnight. -/
def localMidnight (t : Int) : Int :=
  let c := civilFromDays (t / dayMs)
  daysFromCivil c.1 c.2.1 c.2.2 * dayMs

/-- `Math.ceil(a / b)` for integer `a` and positive integer `b`. -/
def ceilDivInt (a b : Int) : Int := -((-a) / b)

/-- `getDateCategory` (noteUtils.ts lines 12–28).  `date` is the note's
`updatedAt`; `nowMs` is the current instant (`new Date()`). -/
def getDateCategory (date : Int) (nowMs : Int) : DateCategory :=
  let today := localMidnight nowMs
  let noteDateOnly := localMidnight date
  let diffTime := today - noteDateOnly
  let diffDays := ceilDivInt diffTime dayMs
  if diffDays = 0 then .today
  else if diffDays = 1 then .yesterday
  else if diffDays ≤ 7 then .thisWeek
  else if diffDays ≤ 30 then .thisMonth
  else .older

/-! ## The storage codec

`saveNotesToStorage` stores `JSON.stringify(notes)`; `loadNotesFromStorage`
applies `JSON.parse` and rebuilds the `Date` fields with `new Date(s)`.
The JSON layer (object keys, string escaping) is a bijective rendering and
is modelled at the value level: a stored note is the parsed JSON object,
whose date fields hold the ISO string content. -/

/-- One element of the parsed JSON array stored under the notes key. -/
structure StoredNote where
  id : List Char
  title : List Char
  content : List Char
  createdAt : IsoDate
  updatedAt : IsoDate
deriving DecidableEq, Repr

/-- `JSON.stringify` of one note: `Date#toJSON` renders the instants as
ISO strings. -/
def encodeNote (n : Note) : StoredNote :=
  { id := n.id, title := n.title, content := n.content,
    createdAt := toIso n.createdAt, updatedAt := toIso n.updatedAt }

/-- The per-note conversion in `loadNotesFromStorage`:
`{...note, createdAt: new Date(note.createdAt), updatedAt: new Date(note.updatedAt)}`. -/
def decodeNote (s : StoredNote) : Note :=
  { id := s.id, title := s.title, content := s.content,
    createdAt := parseIso s.createdAt, updatedAt := parseIso s.updatedAt }

/-- Encoding of the whole collection (one JSON array). -/
def encodeNotes (l : List Note) : List StoredNote := l.map encodeNote

/-- Decoding of the whole collection (`notes.map(...)`). -/
def decodeNotes (l : List StoredNote) : List Note := l.map decodeNote

/-! ## useNotes.ts — the hook state machine -/

/-- `NotesState` (`src/types`): the hook's visible state triple. -/
structure NotesState where
  notes : List Note
  loading : Bool
  error : Option String
deriving DecidableEq, Repr

/-- What the blob stored under the notes key can look like to the
loader: a JSON array of stored notes, or bytes on which `JSON.parse`
(or the subsequent `.map`) throws. -/
inductive StoredBlob where
  | collection (l : List StoredNote)
  | corrupt
deriving DecidableEq, Repr

/-- Hook state plus the AsyncStorage cell under `'savemymind_notes'`
(`none` = no blob stored). -/
structure HookState where
  state : NotesState
  stored : Option StoredBlob
deriving DecidableEq, Repr

/-- The message `saveNotes` surfaces when the write-through fails — the
hook-level rendering of the spec's `PersistError`. -/
def persistErrorMsg : String := "Failed to save notes"

/-- `saveNotesToStorage` (noteUtils.ts lines 67–75): serialize and write;
on adapter failure the error is logged and rethrown and the cell is
untouched.  `persistOk` injects the adapter outcome. -/
def saveNotesToStorage (notes : List Note) (persistOk : Bool) :
    Except Unit StoredBlob :=
  if persistOk then .ok (.collection (encodeNotes notes)) else .error ()

/-- `saveNotes` (useNotes.ts lines 40–50): write through, then commit the
new list to memory with the error cleared; on failure set the persist
error and leave the in-memory list (and the cell) unchanged.  The failure
is caught here and not rethrown. -/
def saveNotes (hs : HookState) (notes : List Note) (persistOk : Bool) : HookState :=
  match saveNotesToStorage notes persistOk with
  | .ok st => { state := { hs.state with notes := notes, error := none }, stored := some st }
  | .error _ => { hs with state := { hs.state with error := some persistErrorMsg } }

/-- `loadNotesFromStorage` (noteUtils.ts lines 77–93): read the cell
(`readOk = false` injects an adapter `getItem` failure); absent blob →
`[]`; parse/convert; any failure is caught and `[]` returned — the
function never throws and never writes the cell. -/
def loadNotesFromStorage (readOk : Bool) (stored : Option StoredBlob) : List Note :=
  if readOk then
    match stored with
    | none => []
    | some (.collection l) => decodeNotes l
    | some .corrupt => []
  else []

/-- `loadNotes` (useNotes.ts lines 26–38): set `loading` and clear the
error, read, then publish the result.  Its `catch` branch (which would
set `'Failed to load notes'`) is unreachable because
`loadNotesFromStorage` never throws; the model therefore has no failure
branch here. -/
def loadNotes (hs : HookState) (readOk : Bool) : HookState :=
  let s1 : NotesState := { hs.state with loading := true, error := none }
  let notes := loadNotesFromStorage readOk hs.stored
  { hs with state := { s1 with notes := notes, loading := false } }

/-- `addNote` (useNotes.ts lines 52–77).  The `!noteInput` guard cannot
fire on a typed input; the structural validation of the created note is
kept (its only falsifiable clause on this model is an empty id, which
`generateId` never produces).  On validation failure the catch sets the
formatted error and rethrows; otherwise the new note is prepended and
saved (a `saveNotes` failure is NOT rethrown — `addNote` still resolves
with the note). -/
def addNote (hs : HookState) (noteInput : NoteInput) (nowMs : Int)
    (rand : List Char) (persistOk : Bool) : Except String Note × HookState :=
  let newNote := createNote noteInput nowMs rand
  if newNote.id = [] then
    (.error "Failed to create valid note structure",
     { hs with state := { hs.state with
         error := some "Failed to create note: Failed to create valid note structure" } })
  else
    (.ok newNote, saveNotes hs (newNote :: hs.state.notes) persistOk)

/-- `Array.prototype.findIndex` (`none` models `-1`). -/
def findIndex (p : Note → Bool) : List Note → Option Nat
  | [] => none
  | n :: rest => if p n then some 0 else (findIndex p rest).map (· + 1)

/-- Placeholder for the (never-taken) out-of-bounds array read. -/
def dummyNote : Note :=
  { id := [], title := [], content := [], createdAt := 0, updatedAt := 0 }

/-- The distinct failures `updateNoteById` can throw. -/
inductive UpdateFailure where
  | invalidId
  | notFound
  | invalidStructure
  | invalidData
deriving DecidableEq, Repr

/-- The catch block's formatted message for each failure
(`'Failed to update note: ' + error.message`). -/
def updateFailureMsg : UpdateFailure → String
  | .invalidId => "Failed to update note: Invalid note ID"
  | .notFound => "Failed to update note: Note not found"
  | .invalidStructure => "Failed to update note: Invalid existing note structure"
  | .invalidData => "Failed to update note: Note update resulted in invalid data"

/-- `updateNoteById` (useNotes.ts lines 79–118): guard the id, find the
note, validate, apply `updateNote`, validate the result, write the copy
with the index replaced.  Every throw is caught, formatted into
`state.error` and rethrown; a `saveNotes` failure is not a throw (the
call still resolves with the updated note, the persist error sitting in
`state.error`). -/
def updateNoteById (hs : HookState) (noteId : List Char) (updates : NoteUpdates)
    (nowMs : Int) (persistOk : Bool) : Except UpdateFailure Note × HookState :=
  if noteId = [] then
    (.error .invalidId,
     { hs with state := { hs.state with error := some (updateFailureMsg .invalidId) } })
  else
    match findIndex (fun n => n.id == noteId) hs.state.notes with
    | none =>
      (.error .notFound,
       { hs with state := { hs.state with error := some (updateFailureMsg .notFound) } })
    | some i =>
      let existingNote := hs.state.notes.getD i dummyNote
      if existingNote.id = [] then
        (.error .invalidStructure,
         { hs with state := { hs.state with
             error := some (updateFailureMsg .invalidStructure) } })
      else
        let updatedNote := updateNote existingNote updates nowMs
        if updatedNote.id == noteId then
          (.ok updatedNote, saveNotes hs (hs.state.notes.set i updatedNote) persistOk)
        else
          (.error .invalidData,
           { hs with state := { hs.state with
               error := some (updateFailureMsg .invalidData) } })

/-- `getNoteById` (useNotes.ts lines 145–147): pure lookup. -/
def getNoteById (hs : HookState) (noteId : List Char) : Option Note :=
  hs.state.notes.find? (fun n => n.id == noteId)

/-! ## modelDownloadService.ts and the startup provisioning gate -/

/-- `CURRENT_MODEL_VERSION`. -/
def currentModelVersion : String := "1.0.0"

/-- The model file path on a native platform
(`FileSystem.documentDirectory + MODEL_FILENAME`). -/
def modelPath : String := "documentDirectory/ggml-tiny.en.bin"

/-- The persistent facts the service consults: presence of the model
file, and the two AsyncStorage cells (`whisper_model_version` and
`whisper_model_downloaded`). -/
structure ModelStore where
  fileExists : Bool
  storedVersion : Option String
  installedFlag : Option String
deriving DecidableEq, Repr

/-- `isModelAvailable` (modelDownloadService.ts lines 53–82).  `web`
selects the `Platform.OS === 'web' || !FileSystem` guard.  Returns the
reported availability and the (possibly cleaned-up) store. -/
def isModelAvailable (web : Bool) (s : ModelStore) : Bool × ModelStore :=
  if web then (false, s)
  else if !s.fileExists then (false, s)
  else if s.storedVersion ≠ some currentModelVersion then
    (false, { fileExists := false, storedVersion := none, installedFlag := none })
  else (s.installedFlag == some "true", s)

/-- Outcome of `downloadResumable.downloadAsync()` plus the file-presence
verification: `err` = the transfer threw or returned no result;
`okMissing` = it resolved but the file is not at the expected path;
`ok` = it resolved and the file is present. -/
inductive DlOutcome where
  | err
  | okMissing
  | ok
deriving DecidableEq, Repr

/-- `downloadModel` (modelDownloadService.ts lines 87–157): throws on
web; short-circuits if already available; otherwise transfers, verifies
the file, and marks the flags — any failure path deletes the partial
file and removes the installed flag (the version cell is left alone by
this cleanup) before rethrowing. -/
def downloadModel (web : Bool) (s : ModelStore) (dl : DlOutcome) :
    Except String String × ModelStore :=
  if web then (.error "Model download not supported on web platform", s)
  else
    let r1 := isModelAvailable web s
    if r1.1 then (.ok modelPath, r1.2)
    else
      match dl with
      | .err =>
        (.error "Download failed - no result returned",
         { r1.2 with fileExists := false, installedFlag := none })
      | .okMissing =>
        (.error "Download completed but file not found",
         { r1.2 with fileExists := false, installedFlag := none })
      | .ok =>
        (.ok modelPath,
         { fileExists := true, storedVersion := some currentModelVersion,
           installedFlag := some "true" })

/-- The gate state `validateAndEnsureModel` publishes
(`isModelReady` / `isModelDownloading` / `modelDownloadError` in
`src/app/index.tsx`). -/
structure GateResult where
  isModelReady : Bool
  isModelDownloading : Bool
  modelDownloadError : Option String
deriving DecidableEq, Repr

/-- `validateAndEnsureModel` (`src/app/index.tsx` lines 52–101): on the
web platform skip validation and report ready; otherwise check
availability, download if needed, re-validate, and report ready or the
failure. -/
def validateAndEnsureModel (web : Bool) (s : ModelStore) (dl : DlOutcome) :
    GateResult × ModelStore :=
  if web then
    ({ isModelReady := true, isModelDownloading := false, modelDownloadError := none }, s)
  else
    let r1 := isModelAvailable web s
    if r1.1 then
      ({ isModelReady := true, isModelDownloading := false, modelDownloadError := none },
       r1.2)
    else
      match downloadModel web r1.2 dl with
      | (.ok _, s2) =>
        let r2 := isModelAvailable web s2
        if r2.1 then
          ({ isModelReady := true, isModelDownloading := false,
             modelDownloadError := none }, r2.2)
        else
          ({ isModelReady := false, isModelDownloading := false,
             modelDownloadError := some "Model download completed but validation failed" },
           r2.2)
      | (.error e, s2) =>
        ({ isModelReady := false, isModelDownloading := false,
           modelDownloadError := some e }, s2)

/-! ## Supporting lemmas: civil calendar -/

set_option maxRecDepth 4000 in
theorem boundary_facts : ∀ y, y < 400 →
    ffun (yearStart y) = y ∧ ffun (nextStart y - 1) = y ∧
    yearStart y < nextStart y ∧ nextStart y - yearStart y ≤ 366 ∧
    nextStart y ≤ 146097 := by
  decide

set_option maxRecDepth 4000 in
theorem monthday_facts : ∀ doy, doy ≤ 365 → monthDayRT doy = true := by decide

theorem gfun_step (doe : Nat) (h : doe + 1 < 146097) : gfun doe ≤ gfun (doe + 1) := by
  unfold gfun
  rw [Nat.succ_div doe 1460, Nat.succ_div doe 36524, Nat.succ_div doe 146096]
  have h1 : doe / 1460 * 1460 ≤ doe := Nat.div_mul_le_self doe 1460
  have h2 : doe / 36524 * 36524 ≤ doe := Nat.div_mul_le_self doe 36524
  have h3 : doe / 146096 * 146096 ≤ doe := Nat.div_mul_le_self doe 146096
  by_cases c1 : 1460 ∣ doe + 1 <;> by_cases c2 : 36524 ∣ doe + 1 <;>
    by_cases c3 : 146096 ∣ doe + 1 <;> simp [c1, c2, c3] <;> omega

theorem gfun_mono : ∀ a b : Nat, a ≤ b → b < 146097 → gfun a ≤ gfun b := by
  intro a b hab hb
  induction b with
  | zero =>
    have ha : a = 0 := by omega
    subst ha; exact Nat.le_refl _
  | succ n ih =>
    rcases Nat.lt_or_ge a (n + 1) with h | h
    · exact Nat.le_trans (ih (by omega) (by omega)) (gfun_step n hb)
    · have ha : a = n + 1 := by omega
      subst ha; exact Nat.le_refl _

theorem ffun_mono (a b : Nat) (hab : a ≤ b) (hb : b < 146097) : ffun a ≤ ffun b :=
  Nat.div_le_div_right (gfun_mono a b hab hb)

theorem year_lookup (doe : Nat) (h : doe < 146097) :
    yearStart (ffun doe) ≤ doe ∧ doe < nextStart (ffun doe) ∧ ffun doe < 400 := by
  have h399 := boundary_facts 399 (by omega)
  have e399 : nextStart 399 - 1 = 146096 := rfl
  have htop : ffun doe ≤ 399 := by
    have hm := ffun_mono doe 146096 (by omega) (by omega)
    rw [e399] at h399
    omega
  have hy : ffun doe < 400 := by omega
  refine ⟨?_, ?_, hy⟩
  · by_contra hlt
    push_neg at hlt
    have hy0 : ffun doe ≠ 0 := by
      intro h0
      rw [h0] at hlt
      simp [yearStart] at hlt
    set y := ffun doe with hydef
    have hprev := boundary_facts (y - 1) (by omega)
    have hns : nextStart (y - 1) = yearStart y := by
      have h1 : ¬ (y - 1 = 399) := by omega
      have h2 : y - 1 + 1 = y := by omega
      simp only [nextStart, if_neg h1, h2]
    rw [hns] at hprev
    have hle : doe ≤ yearStart y - 1 := by omega
    have hm := ffun_mono doe (yearStart y - 1) hle (by omega)
    rw [hprev.2.1] at hm
    omega
  · by_contra hge
    push_neg at hge
    set y := ffun doe with hydef
    by_cases h399' : y = 399
    · rw [h399', show nextStart 399 = 146097 from rfl] at hge
      omega
    · have hnext := boundary_facts (y + 1) (by omega)
      have hns : nextStart y = yearStart (y + 1) := by
        simp only [nextStart, if_neg h399']
      rw [hns] at hge
      have hm := ffun_mono (yearStart (y + 1)) doe hge (by omega)
      rw [hnext.1] at hm
      omega

theorem civilFromDoe_rt (doe : Nat) (h : doe < 146097) :
    doeFromYoeDoy (civilFromDoe doe).1
      (doyFromMonthDay (civilFromDoe doe).2.1 (civilFromDoe doe).2.2) = doe ∧
    (civilFromDoe doe).1 < 400 ∧ 1 ≤ (civilFromDoe doe).2.1 ∧ (civilFromDoe doe).2.1 ≤ 12 ∧
    ((civilFromDoe doe).2.1 ≤ 2 ↔ 10 ≤ (5 * (doe - yearStart (ffun doe)) + 2) / 153) := by
  obtain ⟨hA, hB, hC⟩ := year_lookup doe h
  have hbf := boundary_facts (ffun doe) hC
  have hdoy : doe - yearStart (ffun doe) ≤ 365 := by omega
  have hmd := monthday_facts (doe - yearStart (ffun doe)) hdoy
  unfold monthDayRT at hmd
  simp only [Bool.and_eq_true, beq_iff_eq, decide_eq_true_eq] at hmd
  unfold civilFromDoe doeFromYoeDoy doyFromMonthDay
  simp only []
  have hys : (365 * ffun doe + ffun doe / 4 - ffun doe / 100) = yearStart (ffun doe) := rfl
  have hff : (doe - doe / 1460 + doe / 36524 - doe / 146096) / 365 = ffun doe := rfl
  rw [hff, hys]
  constructor
  · omega
  · constructor
    · exact hC
    · exact ⟨by omega, by omega, by omega, by omega⟩

theorem daysFromCivil_civilFromDays (z : Int) :
    daysFromCivil (civilFromDays z).1 (civilFromDays z).2.1 (civilFromDays z).2.2 = z := by
  have hmod : (0 : Int) ≤ (z + 719468) % 146097 :=
    Int.emod_nonneg _ (by norm_num)
  have hmod2 : (z + 719468) % 146097 < 146097 :=
    Int.emod_lt_of_pos _ (by norm_num)
  set era := (z + 719468) / 146097 with hera
  set doe : Nat := ((z + 719468) % 146097).toNat with hdoe
  have hdoeN : doe < 146097 := by omega
  obtain ⟨hrt, hyoe, hm1, hm12, hm2iff⟩ := civilFromDoe_rt doe hdoeN
  simp only [civilFromDays, daysFromCivil]
  set c := civilFromDoe doe with hc
  have hadj : (if c.2.1 ≤ 2 then
      (era * 400 + ↑c.1 + (if c.2.1 ≤ 2 then (1 : Int) else 0)) - 1
    else era * 400 + ↑c.1 + (if c.2.1 ≤ 2 then (1 : Int) else 0)) = era * 400 + ↑c.1 := by
    by_cases hle : c.2.1 ≤ 2 <;> simp [hle]
  rw [hadj]
  have hediv : (era * 400 + (c.1 : Int)) / 400 = era := by
    rw [add_comm, Int.add_mul_ediv_right _ _ (by norm_num : (400:Int) ≠ 0)]
    rw [Int.ediv_eq_zero_of_lt (by positivity) (by exact_mod_cast hyoe)]
    ring
  rw [hediv]
  have hyoeEq : ((era * 400 + (c.1 : Int)) - era * 400).toNat = c.1 := by
    simp
  rw [hyoeEq, hrt]
  have hfin := Int.ediv_add_emod (z + 719468) 146097
  have hcast : ((doe : Int)) = (z + 719468) % 146097 := by
    rw [hdoe, Int.toNat_of_nonneg hmod]
  omega

theorem parseIso_toIso (t : Int) : parseIso (toIso t) = t := by
  have hmod : (0 : Int) ≤ t % 86400000 := Int.emod_nonneg _ (by norm_num)
  have hmod2 : t % 86400000 < 86400000 := Int.emod_lt_of_pos _ (by norm_num)
  simp only [toIso, parseIso]
  rw [daysFromCivil_civilFromDays]
  set ms : Nat := (t % 86400000).toNat with hms
  have hmsN : ms < 86400000 := by omega
  have hrecomb : ms / 3600000 * 3600000 + ms / 60000 % 60 * 60000 +
      ms / 1000 % 60 * 1000 + ms % 1000 = ms := by omega
  have hfin := Int.ediv_add_emod t 86400000
  have hcast : ((ms : Int)) = t % 86400000 := by
    rw [hms, Int.toNat_of_nonneg hmod]
  push_cast
  omega

/-! ## Supporting lemmas: strings and titles -/

theorem dropWhile_head_false (p : Char → Bool) :
    ∀ (l : List Char) c r, l.dropWhile p = c :: r → p c = false := by
  intro l
  induction l with
  | nil => intro c r h; simp [List.dropWhile] at h
  | cons a t ih =>
    intro c r h
    by_cases ha : p a
    · rw [List.dropWhile_cons, if_pos ha] at h
      exact ih c r h
    · rw [List.dropWhile_cons, if_neg ha] at h
      cases h
      simpa using ha

theorem dropWhile_append_last (p : Char → Bool) (xs : List Char) (c : Char)
    (hc : p c = false) : (xs ++ [c]).dropWhile p = xs.dropWhile p ++ [c] := by
  induction xs with
  | nil => simp [List.dropWhile_cons, hc]
  | cons a t ih =>
    by_cases ha : p a <;> simp [List.dropWhile_cons, ha, ih]

theorem dropTrailingWS_cons (c : Char) (r : List Char) (hc : jsIsWS c = false) :
    dropTrailingWS (c :: r) = c :: dropTrailingWS r := by
  unfold dropTrailingWS
  rw [List.reverse_cons, dropWhile_append_last jsIsWS _ c hc, List.reverse_append]
  rfl

theorem jsTrim_cons_not_ws (c : Char) (r : List Char) (hc : jsIsWS c = false) :
    jsTrim (c :: r) = c :: dropTrailingWS r := by
  unfold jsTrim
  rw [List.dropWhile_cons, if_neg (by simp [hc]), dropTrailingWS_cons c r hc]

theorem jsTrim_head (l : List Char) (h : ¬ jsTrim l = []) :
    ∃ c r, jsTrim l = c :: r ∧ jsIsWS c = false := by
  unfold jsTrim at h ⊢
  cases hdw : l.dropWhile jsIsWS with
  | nil =>
    rw [hdw] at h
    simp [dropTrailingWS] at h
  | cons c r =>
    have hc : jsIsWS c = false := dropWhile_head_false _ l c r hdw
    rw [dropTrailingWS_cons c r hc]
    exact ⟨c, dropTrailingWS r, rfl, hc⟩

theorem jsTrim_cons_ne_nil (c : Char) (r : List Char) (hc : jsIsWS c = false) :
    ¬ jsTrim (c :: r) = [] := by
  rw [jsTrim_cons_not_ws c r hc]
  simp

theorem splitLines_ne_nil : ∀ (l : List Char), ¬ splitLines l = [] := by
  intro l
  cases l with
  | nil => simp [splitLines]
  | cons c rest =>
    simp only [splitLines]
    by_cases h : c = '\n'
    · simp [h]
    · simp only [if_neg h]
      cases hs : splitLines rest <;> simp

theorem splitLines_cons_head (c : Char) (rest : List Char) (hc : ¬ c = '\n') :
    ∃ l ls, splitLines rest = l :: ls ∧ splitLines (c :: rest) = (c :: l) :: ls := by
  cases hs : splitLines rest with
  | nil => exact absurd hs (splitLines_ne_nil rest)
  | cons l ls =>
    refine ⟨l, ls, rfl, ?_⟩
    simp [splitLines, hc, hs]

theorem truncateTitle_ne_nil (l : List Char) (h : ¬ l = []) : ¬ truncateTitle l = [] := by
  unfold truncateTitle
  by_cases hl : l.length > 50
  · simp [hl, ellipsisMarker]
  · simpa [hl] using h

theorem generateTitle_ne_nil (content : List Char) :
    ¬ generateTitleFromContent content = [] := by
  unfold generateTitleFromContent
  by_cases h : jsTrim content = []
  · simp [h, newNoteTitle]
  · simp only [if_neg h]
    by_cases hfl : jsTrim ((splitLines (jsTrim content)).headD []) = []
    · simp only [if_pos hfl]
      cases hf : (splitLines (jsTrim content)).find? (fun l => !(jsTrim l).isEmpty) with
      | none => simp [newNoteTitle]
      | some l =>
        have hp := List.find?_some hf
        simp only [Bool.not_eq_true'] at hp
        refine truncateTitle_ne_nil _ ?_
        intro he
        rw [he] at hp
        simp at hp
    · simp only [if_neg hfl]
      exact truncateTitle_ne_nil _ hfl

/-! ## Supporting lemmas: ids, lookup, categorization, codec -/

theorem natDecimalGo_eq_nil : ∀ (fuel n : Nat) (acc : List Char),
    natDecimalGo fuel n acc = [] → fuel = 0 ∧ acc = [] := by
  intro fuel
  induction fuel with
  | zero => intro n acc h; exact ⟨rfl, h⟩
  | succ f ih =>
    intro n acc h
    by_cases hn : n < 10
    · rw [natDecimalGo, if_pos hn] at h
      cases h
    · rw [natDecimalGo, if_neg hn] at h
      obtain ⟨-, h2⟩ := ih (n / 10) (Nat.digitChar (n % 10) :: acc) h
      cases h2

theorem natDecimal_ne_nil (n : Nat) : ¬ natDecimal n = [] := by
  intro h
  obtain ⟨h1, -⟩ := natDecimalGo_eq_nil (n + 1) n [] h
  cases h1

theorem intDecimal_ne_nil (i : Int) : ¬ intDecimal i = [] := by
  unfold intDecimal
  by_cases hi : i < 0
  · simp [hi]
  · simpa [hi] using natDecimal_ne_nil i.toNat

theorem generateId_ne_nil (nowMs : Int) (rand : List Char) :
    ¬ generateId nowMs rand = [] := by
  unfold generateId
  intro h
  rw [List.append_eq_nil] at h
  exact intDecimal_ne_nil nowMs h.1

theorem findIndex_eq_none (p : Note → Bool) :
    ∀ (l : List Note), (∀ m ∈ l, p m = false) → findIndex p l = none := by
  intro l h
  induction l with
  | nil => rfl
  | cons n rest ih =>
    have hn := h n (List.mem_cons_self n rest)
    simp [findIndex, hn, ih (fun m hm => h m (List.mem_cons_of_mem n hm))]

theorem findIndex_some (p : Note → Bool) :
    ∀ (l : List Note) i, findIndex p l = some i →
      i < l.length ∧ p (l.getD i dummyNote) = true := by
  intro l
  induction l with
  | nil => intro i h; simp [findIndex] at h
  | cons n rest ih =>
    intro i h
    by_cases hn : p n
    · rw [findIndex, if_pos hn] at h
      cases h
      simpa using hn
    · rw [findIndex, if_neg hn] at h
      rw [Option.map_eq_some'] at h
      obtain ⟨j, hj, hji⟩ := h
      obtain ⟨hlt, hp⟩ := ih j hj
      subst hji
      refine ⟨by simpa using hlt, ?_⟩
      simpa using hp

theorem localMidnight_eq (t : Int) : localMidnight t = (t / dayMs) * dayMs := by
  simp only [localMidnight]
  rw [daysFromCivil_civilFromDays]

theorem getDateCategory_eq (date nowMs : Int) :
    getDateCategory date nowMs =
      (if nowMs / dayMs - date / dayMs = 0 then DateCategory.today
       else if nowMs / dayMs - date / dayMs = 1 then DateCategory.yesterday
       else if nowMs / dayMs - date / dayMs ≤ 7 then DateCategory.thisWeek
       else if nowMs / dayMs - date / dayMs ≤ 30 then DateCategory.thisMonth
       else DateCategory.older) := by
  simp only [getDateCategory]
  rw [localMidnight_eq, localMidnight_eq]
  have hdd : ceilDivInt ((nowMs / dayMs) * dayMs - (date / dayMs) * dayMs) dayMs
      = nowMs / dayMs - date / dayMs := by
    unfold ceilDivInt
    have hneg : -((nowMs / dayMs) * dayMs - (date / dayMs) * dayMs)
        = (date / dayMs - nowMs / dayMs) * dayMs := by ring
    rw [hneg, Int.mul_ediv_cancel _ (by norm_num [dayMs])]
    ring
  rw [hdd]

theorem decodeNote_encodeNote (n : Note) : decodeNote (encodeNote n) = n := by
  simp [decodeNote, encodeNote, parseIso_toIso]

/-! ## Claim theorems -/

/-- C3: for every content string, the generated title equals the
spec's rule — the fixed default when the trimmed content is blank;
otherwise the first line that is non-empty after trimming, truncated to
50 characters with an ellipsis marker when it exceeds 50; the default
when no non-empty line exists. -/
theorem claim_C3_title_generation (content : List Char) :
    generateTitleFromContent content = specTitleGen content := by
  unfold generateTitleFromContent specTitleGen
  by_cases h : jsTrim content = []
  · simp [h]
  · simp only [if_neg h]
    obtain ⟨c, r, heq, hc⟩ := jsTrim_head content h
    have hcn : ¬ c = '\n' := by
      intro h'
      rw [h'] at hc
      exact absurd hc (by decide)
    rw [heq]
    obtain ⟨l, ls, hsl, hcons⟩ := splitLines_cons_head c r hcn
    rw [hcons]
    simp only [List.headD_cons]
    have hfl : jsTrim (c :: l) = c :: dropTrailingWS l := jsTrim_cons_not_ws c l hc
    have hne : ¬ jsTrim (c :: l) = [] := jsTrim_cons_ne_nil c l hc
    rw [if_neg (by rw [hfl]; simp)]
    rw [List.find?_cons_of_pos _ (by simp [List.isEmpty_iff, hne])]

/-- C4: the date category is a function of the whole-calendar-day
difference `diffDays = today's day number - the note's day number` alone,
with `0 ↦ Today`, `1 ↦ Yesterday`, `(1, 7] ↦ This week`,
`(7, 30] ↦ This month`, `(30, ∞) ↦ Older`; being day-based, a note from
23:59 yesterday against a now of 00:01 today lands in Yesterday
(instantiated in the witness below). -/
theorem claim_C4_date_category (date nowMs : Int) :
    (nowMs / dayMs - date / dayMs = 0 →
      getDateCategory date nowMs = DateCategory.today) ∧
    (nowMs / dayMs - date / dayMs = 1 →
      getDateCategory date nowMs = DateCategory.yesterday) ∧
    (1 < nowMs / dayMs - date / dayMs ∧ nowMs / dayMs - date / dayMs ≤ 7 →
      getDateCategory date nowMs = DateCategory.thisWeek) ∧
    (7 < nowMs / dayMs - date / dayMs ∧ nowMs / dayMs - date / dayMs ≤ 30 →
      getDateCategory date nowMs = DateCategory.thisMonth) ∧
    (30 < nowMs / dayMs - date / dayMs →
      getDateCategory date nowMs = DateCategory.older) := by
  refine ⟨?_, ?_, ?_, ?_, ?_⟩ <;> intro h <;> rw [getDateCategory_eq] <;>
    split_ifs <;> first | rfl | omega

/-- C4 witness: note updated at 23:59 of epoch day 0, now 00:01 of epoch
day 1 — one calendar day apart, 2 minutes of real time — is Yesterday. -/
theorem claim_C4_witness :
    86460000 / dayMs - 86340000 / dayMs = 1 ∧
    getDateCategory 86340000 86460000 = DateCategory.yesterday :=
  ⟨by decide, (claim_C4_date_category 86340000 86460000).2.1 (by decide)⟩

/-- C10: a future-dated note (note's calendar day strictly after today's)
gets category This week: the negative day difference fails the `= 0` and
`= 1` tests and satisfies `≤ 7`. -/
theorem claim_C10_future_dates (date nowMs : Int)
    (h : nowMs / dayMs < date / dayMs) :
    getDateCategory date nowMs = DateCategory.thisWeek := by
  rw [getDateCategory_eq]
  split_ifs <;> first | rfl | omega

/-- C10 witness: a note dated tomorrow relative to a now at the epoch. -/
theorem claim_C10_witness :
    0 / dayMs < 86400000 / dayMs ∧
    getDateCategory 86400000 0 = DateCategory.thisWeek :=
  ⟨by decide, claim_C10_future_dates 86400000 0 (by decide)⟩

/-- C6: decoding the encoded serialization of any collection — empty
included — returns the original collection; ids, titles, contents and
both timestamps round-trip exactly (the timestamp part rests on the
ISO-8601 round trip `parseIso_toIso`). -/
theorem claim_C6_codec_roundtrip (l : List Note) : decodeNotes (encodeNotes l) = l := by
  unfold decodeNotes encodeNotes
  rw [List.map_map]
  have h : ∀ n ∈ l, (decodeNote ∘ encodeNote) n = id n := fun n _ => decodeNote_encodeNote n
  rw [List.map_congr_left h, List.map_id]

/-- C9: on the web platform (no file-system capability) the startup
provisioning gate short-circuits to ready (`Available`) without touching
the persisted model state, so it never blocks the rest of the app
there.  The short-circuit lives in `validateAndEnsureModel`
(`src/app/index.tsx`), the code that composes the service into the gate
the spec describes. -/
theorem claim_C9_web_short_circuit (s : ModelStore) (dl : DlOutcome) :
    validateAndEnsureModel true s dl
      = ({ isModelReady := true, isModelDownloading := false,
           modelDownloadError := none }, s) := rfl

/-- C8: on a native platform, when the Checking step sees the model file
present but the persisted version tag different from the current
expected version, it deletes the file, clears both persisted cells, and
reports not-available — never Available from that stale state. -/
theorem claim_C8_version_mismatch (s : ModelStore)
    (hfile : s.fileExists = true)
    (hver : ¬ s.storedVersion = some currentModelVersion) :
    isModelAvailable false s
      = (false, { fileExists := false, storedVersion := none, installedFlag := none }) := by
  simp [isModelAvailable, hfile, hver]

/-- C8 witness: file present, stale tag `'0.9.0'`, installed flag set. -/
theorem claim_C8_witness :
    (⟨true, some "0.9.0", some "true"⟩ : ModelStore).fileExists = true ∧
    ¬ (⟨true, some "0.9.0", some "true"⟩ : ModelStore).storedVersion
        = some currentModelVersion ∧
    isModelAvailable false ⟨true, some "0.9.0", some "true"⟩
      = (false, { fileExists := false, storedVersion := none, installedFlag := none }) :=
  ⟨rfl, by decide,
   claim_C8_version_mismatch ⟨true, some "0.9.0", some "true"⟩ rfl (by decide)⟩

/-- C1: on persist failure the write-through contract holds for create
and for update alike: the in-memory collection stays equal to its
pre-call state, the storage cell is untouched, and the hook surfaces the
persist error (`state.error = 'Failed to save notes'` — the hook-level
rendering of `PersistError`). -/
theorem claim_C1_persist_rollback :
    (∀ (hs : HookState) (noteInput : NoteInput) (nowMs : Int) (rand : List Char),
      (addNote hs noteInput nowMs rand false).2.state.notes = hs.state.notes ∧
      (addNote hs noteInput nowMs rand false).2.state.error = some persistErrorMsg ∧
      (addNote hs noteInput nowMs rand false).2.stored = hs.stored) ∧
    (∀ (hs : HookState) (noteId : List Char) (updates : NoteUpdates) (nowMs : Int)
        (i : Nat),
      ¬ noteId = [] →
      findIndex (fun n => n.id == noteId) hs.state.notes = some i →
      (updateNoteById hs noteId updates nowMs false).2.state.notes = hs.state.notes ∧
      (updateNoteById hs noteId updates nowMs false).2.state.error = some persistErrorMsg ∧
      (updateNoteById hs noteId updates nowMs false).2.stored = hs.stored) := by
  constructor
  · intro hs noteInput nowMs rand
    have hid : ¬ (createNote noteInput nowMs rand).id = [] := generateId_ne_nil nowMs rand
    simp [addNote, if_neg hid, saveNotes, saveNotesToStorage]
  · intro hs noteId updates nowMs i hne hfi
    obtain ⟨hlt, hp⟩ := findIndex_some _ _ _ hfi
    have heq : (hs.state.notes.getD i dummyNote).id = noteId := by simpa using hp
    have hnonempty : ¬ (hs.state.notes.getD i dummyNote).id = [] := by
      rw [heq]; exact hne
    have hbeq : ((updateNote (hs.state.notes.getD i dummyNote) updates nowMs).id
        == noteId) = true := by
      have hpr : (updateNote (hs.state.notes.getD i dummyNote) updates nowMs).id
          = (hs.state.notes.getD i dummyNote).id := rfl
      rw [hpr, heq]
      simp
    simp only [updateNoteById, if_neg hne, hfi]
    rw [if_neg hnonempty, if_pos hbeq]
    simp [saveNotes, saveNotesToStorage]

/-- C1 witness: one existing note `'a'`; a failing create and a failing
update of `'a'` both leave the collection and the cell unchanged and set
the persist error. -/
theorem claim_C1_witness :
    ((addNote ⟨⟨[⟨['a'], ['a'], [], 0, 0⟩], false, none⟩, none⟩
        ⟨['t'], ['c']⟩ 0 ['r'] false).2.state.notes
      = [⟨['a'], ['a'], [], 0, 0⟩] ∧
     (addNote ⟨⟨[⟨['a'], ['a'], [], 0, 0⟩], false, none⟩, none⟩
        ⟨['t'], ['c']⟩ 0 ['r'] false).2.state.error = some persistErrorMsg ∧
     (addNote ⟨⟨[⟨['a'], ['a'], [], 0, 0⟩], false, none⟩, none⟩
        ⟨['t'], ['c']⟩ 0 ['r'] false).2.stored = none) ∧
    ((updateNoteById ⟨⟨[⟨['a'], ['a'], [], 0, 0⟩], false, none⟩, none⟩
        ['a'] ⟨some ['u'], none⟩ 5 false).2.state.notes
      = [⟨['a'], ['a'], [], 0, 0⟩] ∧
     (updateNoteById ⟨⟨[⟨['a'], ['a'], [], 0, 0⟩], false, none⟩, none⟩
        ['a'] ⟨some ['u'], none⟩ 5 false).2.state.error = some persistErrorMsg ∧
     (updateNoteById ⟨⟨[⟨['a'], ['a'], [], 0, 0⟩], false, none⟩, none⟩
        ['a'] ⟨some ['u'], none⟩ 5 false).2.stored = none) :=
  ⟨claim_C1_persist_rollback.1 ⟨⟨[⟨['a'], ['a'], [], 0, 0⟩], false, none⟩, none⟩
      ⟨['t'], ['c']⟩ 0 ['r'],
   claim_C1_persist_rollback.2 ⟨⟨[⟨['a'], ['a'], [], 0, 0⟩], false, none⟩, none⟩
      ['a'] ⟨some ['u'], none⟩ 5 0 (by decide) (by decide)⟩

/-- C2 counterexample: with an adapter read failure on a present, intact
blob, the load path returns the empty list and leaves the blob alone —
but the hook's error stays `none`: no `LoadError` is ever signalled,
because `loadNotesFromStorage` catches the failure internally and the
hook's `'Failed to load notes'` branch is unreachable.  This refutes the
claim's "signals a LoadError" conjunct at a concrete input. -/
theorem claim_C2_counterexample :
    (loadNotes ⟨⟨[], true, none⟩, some (StoredBlob.collection [])⟩ false).state.notes = [] ∧
    (loadNotes ⟨⟨[], true, none⟩, some (StoredBlob.collection [])⟩ false).state.error
      = none ∧
    (loadNotes ⟨⟨[], true, none⟩, some (StoredBlob.collection [])⟩ false).stored
      = some (StoredBlob.collection []) :=
  ⟨rfl, rfl, rfl⟩

/-- C2 amended: on adapter read failure or a blob that does not decode,
`load` returns the empty list and neither deletes nor modifies the
stored blob; however no `LoadError` reaches the hook state — the failure
is swallowed inside `loadNotesFromStorage`, so `state.error` is `none`
after the load. -/
theorem claim_C2_amended (hs : HookState) (readOk : Bool)
    (h : readOk = false ∨ hs.stored = some StoredBlob.corrupt) :
    (loadNotes hs readOk).state.notes = [] ∧
    (loadNotes hs readOk).state.error = none ∧
    (loadNotes hs readOk).stored = hs.stored := by
  rcases h with h | h
  · subst h
    exact ⟨rfl, rfl, rfl⟩
  · cases readOk <;> simp [loadNotes, loadNotesFromStorage, h]

/-- C2 witness: a failing read over a loaded hook state. -/
theorem claim_C2_witness :
    (loadNotes ⟨⟨[⟨['a'], ['a'], [], 0, 0⟩], false, none⟩, none⟩ false).state.notes = [] ∧
    (loadNotes ⟨⟨[⟨['a'], ['a'], [], 0, 0⟩], false, none⟩, none⟩ false).state.error = none ∧
    (loadNotes ⟨⟨[⟨['a'], ['a'], [], 0, 0⟩], false, none⟩, none⟩ false).stored = none :=
  claim_C2_amended ⟨⟨[⟨['a'], ['a'], [], 0, 0⟩], false, none⟩, none⟩ false (Or.inl rfl)

/-- C5 counterexample: `generateId` concatenates `Date.now()` with a
random base-36 suffix and never checks for collisions; two creates
observing the same clock value and the same random suffix yield the same
id, so the freshly created note's id can equal a previously created id —
after the two creates below the live collection carries the duplicate id
`'0r'` twice. -/
theorem claim_C5_counterexample :
    ((addNote (addNote ⟨⟨[], false, none⟩, none⟩ ⟨['t'], ['c']⟩ 0 ['r'] true).2
        ⟨['t'], ['c']⟩ 0 ['r'] true).2.state.notes.map Note.id)
      = [['0', 'r'], ['0', 'r']] := by decide

/-- C5 amended: provided the generated id (timestamp digits plus random
suffix) does not collide with the id of any live note — which the code
does not enforce — create followed by `getById` on the returned id yields
that note, with content matching the input, a non-empty title,
`createdAt = updatedAt`, and an id different from every previously
created note's id. -/
theorem claim_C5_amended (hs : HookState) (noteInput : NoteInput) (nowMs : Int)
    (rand : List Char)
    (hfresh : ∀ m ∈ hs.state.notes, ¬ m.id = generateId nowMs rand) :
    (addNote hs noteInput nowMs rand true).1
      = .ok (createNote noteInput nowMs rand) ∧
    getNoteById (addNote hs noteInput nowMs rand true).2
        (createNote noteInput nowMs rand).id = some (createNote noteInput nowMs rand) ∧
    (createNote noteInput nowMs rand).content = noteInput.content ∧
    ¬ (createNote noteInput nowMs rand).title = [] ∧
    (createNote noteInput nowMs rand).createdAt
      = (createNote noteInput nowMs rand).updatedAt ∧
    (∀ m ∈ hs.state.notes, ¬ m.id = (createNote noteInput nowMs rand).id) := by
  have hid : ¬ (createNote noteInput nowMs rand).id = [] := generateId_ne_nil nowMs rand
  refine ⟨?_, ?_, rfl, ?_, rfl, hfresh⟩
  · simp [addNote, if_neg hid]
  · simp only [addNote, if_neg hid, saveNotes, saveNotesToStorage]
    simp only [getNoteById]
    simp
  · by_cases ht : jsTrim noteInput.title = []
    · simpa [createNote, ht] using generateTitle_ne_nil noteInput.content
    · simp [createNote, ht]

/-- C5 witness: one prior note with id `'a'`; the fresh create with
time 0 and suffix `'r'` (id `'0r'`) satisfies the amended contract. -/
theorem claim_C5_witness :
    (addNote ⟨⟨[⟨['a'], ['a'], [], 0, 0⟩], false, none⟩, none⟩
        ⟨['t'], ['c']⟩ 0 ['r'] true).1 = .ok (createNote ⟨['t'], ['c']⟩ 0 ['r']) ∧
    getNoteById (addNote ⟨⟨[⟨['a'], ['a'], [], 0, 0⟩], false, none⟩, none⟩
        ⟨['t'], ['c']⟩ 0 ['r'] true).2 (createNote ⟨['t'], ['c']⟩ 0 ['r']).id
      = some (createNote ⟨['t'], ['c']⟩ 0 ['r']) ∧
    ¬ (createNote ⟨['t'], ['c']⟩ 0 ['r']).title = [] :=
  ⟨(claim_C5_amended ⟨⟨[⟨['a'], ['a'], [], 0, 0⟩], false, none⟩, none⟩
      ⟨['t'], ['c']⟩ 0 ['r'] (by decide)).1,
   (claim_C5_amended ⟨⟨[⟨['a'], ['a'], [], 0, 0⟩], false, none⟩, none⟩
      ⟨['t'], ['c']⟩ 0 ['r'] (by decide)).2.1,
   (claim_C5_amended ⟨⟨[⟨['a'], ['a'], [], 0, 0⟩], false, none⟩, none⟩
      ⟨['t'], ['c']⟩ 0 ['r'] (by decide)).2.2.2.1⟩

/-- C7 counterexample: the empty-string id is absent from the (empty)
live collection, yet `updateNoteById` fails with the invalid-id error,
not `NotFoundError` — the `!noteId` guard fires before the lookup.  This
refutes the claim for that one absent id. -/
theorem claim_C7_counterexample :
    (updateNoteById ⟨⟨[], false, none⟩, none⟩ [] ⟨none, none⟩ 0 true).1
      = Except.error UpdateFailure.invalidId ∧
    ¬ (updateNoteById ⟨⟨[], false, none⟩, none⟩ [] ⟨none, none⟩ 0 true).1
      = Except.error UpdateFailure.notFound := by
  constructor
  · rfl
  · intro h
    injection h with h2
    cases h2

/-- C7 amended: for every NON-empty id absent from the live collection,
`update` fails with `NotFoundError` and leaves the collection unchanged —
no note added, removed or modified, and nothing persisted. -/
theorem claim_C7_amended (hs : HookState) (noteId : List Char) (updates : NoteUpdates)
    (nowMs : Int) (persistOk : Bool) (hne : ¬ noteId = [])
    (habs : ∀ m ∈ hs.state.notes, ¬ m.id = noteId) :
    (updateNoteById hs noteId updates nowMs persistOk).1
      = Except.error UpdateFailure.notFound ∧
    (updateNoteById hs noteId updates nowMs persistOk).2.state.notes = hs.state.notes ∧
    (updateNoteById hs noteId updates nowMs persistOk).2.stored = hs.stored := by
  have hfi : findIndex (fun n => n.id == noteId) hs.state.notes = none :=
    findIndex_eq_none _ _ (fun m hm => by simpa using habs m hm)
  simp [updateNoteById, if_neg hne, hfi]

/-- C7 witness: update of the absent id `'b'` over a one-note collection. -/
theorem claim_C7_witness :
    (updateNoteById ⟨⟨[⟨['a'], ['a'], [], 0, 0⟩], false, none⟩, none⟩
        ['b'] ⟨some ['u'], none⟩ 0 true).1 = Except.error UpdateFailure.notFound ∧
    (updateNoteById ⟨⟨[⟨['a'], ['a'], [], 0, 0⟩], false, none⟩, none⟩
        ['b'] ⟨some ['u'], none⟩ 0 true).2.state.notes = [⟨['a'], ['a'], [], 0, 0⟩] ∧
    (updateNoteById ⟨⟨[⟨['a'], ['a'], [], 0, 0⟩], false, none⟩, none⟩
        ['b'] ⟨some ['u'], none⟩ 0 true).2.stored = none :=
  claim_C7_amended ⟨⟨[⟨['a'], ['a'], [], 0, 0⟩], false, none⟩, none⟩
    ['b'] ⟨some ['u'], none⟩ 0 true (by decide) (by decide)
